import Mathlib

/-!
Shallow embedding of the incremental file-transfer notebook
`src/env_steup_notebooks/transfer_files_to_volume.py` of the
`Mmodarre/lakeflow_brickwell_HoL` repository, together with proofs of the
specification's claims about it.

The platform filesystem (`dbutils.fs`) is the external collaborator: it is
modelled by an `Env` record whose `ls` (directory listing) and `cp` (file
copy) operations may fail, returning `Except` values whose `error`
constructor stands for a raised Python exception.  Python strings are Lean
`String`s; Python string comparison is the lexicographic comparison
`pyLe`/`pyLt` on the character lists; Python's stable `sorted` is modelled
by `List.insertionSort` (a stable sort, hence pointwise equal to any other
stable sort under a total order).  Python ints are `Nat` (file sizes and
counters are non-negative and unbounded in Python).
-/

/-- Lexicographic `≤` on character lists: models Python string comparison
(code-point order), written structurally so the kernel can evaluate it. -/
def strLeChars : List Char → List Char → Bool
  | [], _ => true
  | _ :: _, [] => false
  | a :: as, b :: bs => if a < b then true else if b < a then false else strLeChars as bs

/-- Python `a <= b` on strings. -/
def pyLe (a b : String) : Bool := strLeChars a.data b.data

/-- Python `a < b` on strings (equivalently, not `b <= a` for this total order). -/
def pyLt (a b : String) : Bool := !(pyLe b a)

/-- `pyLe` as a relation, used as the comparator of Python's `sorted(...)`. -/
def monthLeR : String → String → Prop := fun a b => pyLe a b = true

instance : DecidableRel monthLeR :=
  fun a b => inferInstanceAs (Decidable (pyLe a b = true))

/-- One entry of a `dbutils.fs.ls` listing (a `FileInfo`): display name, full
path, size in bytes, directory flag.  `isFile()` is the negation of `isDir()`. -/
structure FsEntry where
  name : String
  path : String
  size : Nat
  isDir : Bool
deriving DecidableEq

/-- `FileInfo.isFile()`. -/
def FsEntry.isFile (e : FsEntry) : Bool := !e.isDir

/-- The platform filesystem: `ls` and `cp` may raise (modelled by `.error msg`). -/
structure Env where
  ls : String → Except String (List FsEntry)
  cp : String → String → Except String Unit

/-- Python `s.startswith(pre)`. -/
def strStartsWith (s pre : String) : Bool := pre.data.isPrefixOf s.data

/-- Python `s.rstrip("/")`: drop every trailing slash. -/
def rstripSlash (s : String) : String :=
  String.mk ((s.data.reverse.dropWhile (fun c => c = '/')).reverse)

/-- Matches the compiled regex `MONTH_PATTERN = extraction_month=(\d{4}-\d{2})`
(line 211) at the head of a character list, returning the captured
`YYYY-MM` group.  Nothing anchors the end: trailing characters after the
two month digits are ignored, exactly as in the regex. -/
def monthCaptureAt : List Char → Option String
  | 'e' :: 'x' :: 't' :: 'r' :: 'a' :: 'c' :: 't' :: 'i' :: 'o' :: 'n' :: '_' :: 'm' :: 'o' :: 'n' :: 't' :: 'h' :: '=' ::
      y1 :: y2 :: y3 :: y4 :: '-' :: m1 :: m2 :: _ =>
    if y1.isDigit && y2.isDigit && y3.isDigit && y4.isDigit && m1.isDigit && m2.isDigit then
      some (String.mk [y1, y2, y3, y4, '-', m1, m2])
    else none
  | _ => none

/-- Leftmost-match scan for `monthCaptureAt`, trying every start position. -/
def searchFrom : List Char → Option String
  | [] => none
  | c :: rest =>
    match monthCaptureAt (c :: rest) with
    | some m => some m
    | none => searchFrom rest

/-- `MONTH_PATTERN.search(s)` followed by `.group(1)` (line 225-227): the first
substring match of `extraction_month=(\d{4}-\d{2})` anywhere in `s`. -/
def month_pattern_search (s : String) : Option String := searchFrom s.data

/-- One discovered `schema/table` directory (`get_table_paths` dict). -/
structure TableRef where
  schema : String
  table : String
  path : String
deriving DecidableEq

/-- Sort key of `get_table_paths`: `f"{t['schema']}/{t['table']}"` (line 206). -/
def tableKey (t : TableRef) : String := t.schema ++ "/" ++ t.table

/-- Comparator of `sorted(tables, key=...)` in `get_table_paths`. -/
def tableLeR : TableRef → TableRef → Prop := fun a b => pyLe (tableKey a) (tableKey b) = true

instance : DecidableRel tableLeR :=
  fun a b => inferInstanceAs (Decidable (pyLe (tableKey a) (tableKey b) = true))

/-- Embeds `get_table_paths` (lines 176-206).  A failed outer listing yields no
tables, a failed per-schema listing skips that schema (the warnings are
prints only); non-directories and dot-entries are filtered out, and the
result is sorted by `schema/table`. -/
def get_table_paths (env : Env) (base_path : String) : List TableRef :=
  let tables :=
    match env.ls base_path with
    | .error _ => []
    | .ok schemas =>
      schemas.flatMap (fun schema_dir =>
        if !schema_dir.isDir || strStartsWith schema_dir.name "." then []
        else
          match env.ls schema_dir.path with
          | .error _ => []
          | .ok table_dirs =>
            table_dirs.filterMap (fun table_dir =>
              if !table_dir.isDir || strStartsWith table_dir.name "." then none
              else some { schema := rstripSlash schema_dir.name,
                          table := rstripSlash table_dir.name,
                          path := table_dir.path }))
  List.insertionSort tableLeR tables

/-- Embeds `extract_months_from_table` (lines 214-230): collect
`MONTH_PATTERN` captures over the listing's entry names, return them sorted;
a listing exception is swallowed (`except: pass`) leaving the empty list. -/
def extract_months_from_table (env : Env) (table_path : String) : List String :=
  let months :=
    match env.ls table_path with
    | .error _ => []
    | .ok items => items.filterMap (fun item => month_pattern_search item.name)
  List.insertionSort monthLeR months

/-- Python `p.replace("dbfs:", "")`: delete every (non-overlapping, leftmost
first) occurrence of `dbfs:`. -/
def replaceDbfsChars : List Char → List Char
  | 'd' :: 'b' :: 'f' :: 's' :: ':' :: rest => replaceDbfsChars rest
  | c :: rest => c :: replaceDbfsChars rest
  | [] => []

/-- The path cleaning of `get_files_for_month` line 249. -/
def clean_path (p : String) : String :=
  if strStartsWith p "dbfs:" then String.mk (replaceDbfsChars p.data) else p

/-- Embeds `get_files_for_month` (lines 235-254): list the partition
subdirectory `f"{table_path}extraction_month={target_month}"`, keep regular
files whose name does not start with `_`, and return `(path, size)` pairs;
a listing exception is swallowed leaving the empty list. -/
def get_files_for_month (env : Env) (table_path target_month : String) : List (String × Nat) :=
  match env.ls (table_path ++ "extraction_month=" ++ target_month) with
  | .error _ => []
  | .ok items =>
    (items.filter (fun item => item.isFile && !(strStartsWith item.name "_"))).map
      (fun item => (clean_path item.path, item.size))

/-- All months discovered across all tables (the content of `all_months` in
`get_next_simulation_month`, lines 293-296, before deduplication). -/
def discovered_months (env : Env) (source_volume_path : String) : List String :=
  ((get_table_paths env source_volume_path).map
    (fun tp => extract_months_from_table env tp.path)).flatten

/-- The month-selection core of `get_next_simulation_month` (lines 298-308),
acting on the sorted, duplicate-free month list. -/
def select_next_month (sorted_months : List String) (last_processed : Option String) : Option String :=
  match sorted_months with
  | [] => none
  | first :: _ =>
    match last_processed with
    | none => some first
    | some lp =>
      match sorted_months.filter (fun m => pyLt lp m) with
      | [] => none
      | n :: _ => some n

/-- Embeds `get_next_simulation_month` (lines 281-308).  `set(...)` together
with `sorted(...)` is modelled by `dedup` followed by the stable sort, which
produces the same strictly increasing list. -/
def get_next_simulation_month (env : Env) (source_volume_path : String)
    (last_processed : Option String) : Option String :=
  if get_table_paths env source_volume_path = [] then none
  else
    select_next_month
      (List.insertionSort monthLeR (discovered_months env source_volume_path).dedup)
      last_processed

/-- Python `file_path.split("/")`. -/
def splitSlash : List Char → List (List Char)
  | [] => [[]]
  | '/' :: rest => [] :: splitSlash rest
  | c :: rest =>
    match splitSlash rest with
    | [] => [[c]]
    | g :: gs => (c :: g) :: gs

/-- Python `file_path.split("/")[-1]` (line 330): the final path component. -/
def basename (p : String) : String :=
  String.mk ((splitSlash p.data).getLastD [])

/-- The `stats` dict of `transfer_files_for_table`. -/
structure TransferStats where
  transferred : Nat
  failed : Nat
  bytes : Nat
  errors : List String
deriving DecidableEq

/-- The body of the per-file loop of `transfer_files_for_table`
(lines 328-338): one copy attempt, its own `try/except` catching a copy
failure as the string `f"{file_path}: {str(e)}"`. -/
def transfer_one (env : Env) (target_base : String) (stats : TransferStats)
    (f : String × Nat) : TransferStats :=
  match env.cp f.1 (target_base ++ "/" ++ basename f.1) with
  | .ok _ => { stats with transferred := stats.transferred + 1, bytes := stats.bytes + f.2 }
  | .error e => { stats with failed := stats.failed + 1, errors := stats.errors ++ [f.1 ++ ": " ++ e] }

/-- Embeds `transfer_files_for_table` (lines 313-340).  `table_path` is a
parameter of the source function but is unused there as well. -/
def transfer_files_for_table (env : Env)
    (target_volume_path schema_name table_name table_path target_month : String)
    (files : List (String × Nat)) : TransferStats :=
  let stats : TransferStats := { transferred := 0, failed := 0, bytes := 0, errors := [] }
  if files = [] then stats
  else
    files.foldl
      (transfer_one env
        (target_volume_path ++ "/" ++ schema_name ++ "/" ++ table_name ++
          "/extraction_month=" ++ target_month))
      stats

/-- The destination path derivation of the Transfer Executor:
`<targetRoot>/<schema>/<table>/extraction_month=<month>/<originalFileName>`. -/
def transfer_target_path
    (target_volume_path schema_name table_name target_month file_path : String) : String :=
  target_volume_path ++ "/" ++ schema_name ++ "/" ++ table_name ++
    "/extraction_month=" ++ target_month ++ "/" ++ basename file_path

/-- Whether the copy of file `f` to its derived destination succeeds in `env`. -/
def copy_succeeds (env : Env) (target_volume_path schema_name table_name target_month : String)
    (f : String × Nat) : Bool :=
  match env.cp f.1 (transfer_target_path target_volume_path schema_name table_name target_month f.1) with
  | .ok _ => true
  | .error _ => false

/-- The error string recorded for a failed copy of file `f`:
`f"{file_path}: {str(e)}"` (line 337). -/
def copy_error_string (env : Env) (target_volume_path schema_name table_name target_month : String)
    (f : String × Nat) : String :=
  match env.cp f.1 (transfer_target_path target_volume_path schema_name table_name target_month f.1) with
  | .ok _ => ""
  | .error e => f.1 ++ ": " ++ e

/-- The per-table `result` dict of `process_single_table_for_month`. -/
structure TransferResult where
  label : String
  has_files : Bool
  files_transferred : Nat
  bytes_transferred : Nat
  errors : List String
deriving DecidableEq

/-- Embeds `process_single_table_for_month` (lines 378-430).  Every platform
call inside the source's `try` block already guards its own exceptions
(listing failures are swallowed into empty lists by
`extract_months_from_table` / `get_files_for_month`, copy failures are
caught per file by `transfer_files_for_table`), so with `ls` and `cp` as the
fallible operations the per-table `except` branch of line 425 never receives
an exception and the function is total. -/
def process_single_table_for_month (env : Env) (target_volume_path : String)
    (table_info : TableRef) (target_month : String) : TransferResult :=
  let label := table_info.schema ++ "/" ++ table_info.table
  let result : TransferResult :=
    { label := label, has_files := false, files_transferred := 0,
      bytes_transferred := 0, errors := [] }
  let available_months := extract_months_from_table env table_info.path
  if target_month ∉ available_months then result
  else
    let files := get_files_for_month env table_info.path target_month
    if files = [] then result
    else
      let transfer_stats :=
        transfer_files_for_table env target_volume_path table_info.schema table_info.table
          table_info.path target_month files
      { result with
          has_files := true,
          files_transferred := transfer_stats.transferred,
          bytes_transferred := transfer_stats.bytes,
          errors := transfer_stats.errors }

/-- The `month_stats` accumulator of `process_all_tables` (lines 479-486). -/
structure RunStats where
  total_tables_found : Nat
  tables_with_files : Nat
  tables_skipped : Nat
  total_files_transferred : Nat
  total_bytes_transferred : Nat
  errors : List String
deriving DecidableEq

/-- Initial `month_stats` (lines 479-486). -/
def init_month_stats (total_tables_found : Nat) : RunStats :=
  { total_tables_found := total_tables_found, tables_with_files := 0, tables_skipped := 0,
    total_files_transferred := 0, total_bytes_transferred := 0, errors := [] }

/-- Folding one per-table result into `month_stats` (lines 493-500): a table
with files adds its transfer counts, any other table increments
`tables_skipped`; error lists are concatenated. -/
def fold_table_result (month_stats : RunStats) (result : TransferResult) : RunStats :=
  let s :=
    if result.has_files then
      { month_stats with
          tables_with_files := month_stats.tables_with_files + 1,
          total_files_transferred := month_stats.total_files_transferred + result.files_transferred,
          total_bytes_transferred := month_stats.total_bytes_transferred + result.bytes_transferred }
    else
      { month_stats with tables_skipped := month_stats.tables_skipped + 1 }
  if result.errors ≠ [] then { s with errors := s.errors ++ result.errors } else s

/-- The status decision of `process_all_tables` (lines 525-529). -/
def classify_status (errors : List String) (total_files_transferred : Nat) : String :=
  if errors ≠ [] then (if total_files_transferred > 0 then "partial" else "failed")
  else "success"

/-- One row of the `file_transfer_tracker` Delta table (`table_schema`,
lines 94-103); the wall-clock `last_updated` column is elided. -/
structure LedgerRow where
  simulation_month : String
  total_tables_found : Nat
  tables_with_files : Nat
  tables_skipped : Nat
  total_files_transferred : Nat
  total_bytes_transferred : Nat
  status : String
deriving DecidableEq

/-- Embeds `update_tracking` (lines 345-360): the appended ledger row. -/
def update_tracking (simulation_month : String) (month_stats : RunStats) (status : String) : LedgerRow :=
  { simulation_month := simulation_month,
    total_tables_found := month_stats.total_tables_found,
    tables_with_files := month_stats.tables_with_files,
    tables_skipped := month_stats.tables_skipped,
    total_files_transferred := month_stats.total_files_transferred,
    total_bytes_transferred := month_stats.total_bytes_transferred,
    status := status }

/-- Outcome of a completed run: the appended ledger row together with the
in-memory `month_stats["errors"]` list (which is printed but not persisted). -/
structure RunResult where
  row : LedgerRow
  errors : List String
deriving DecidableEq

/-- Aggregation + status classification + ledger-row construction of
`process_all_tables` (steps 3-6, lines 479-534) over the list of per-table
results. -/
def run_summary (target_month : String) (total_tables_found : Nat)
    (results : List TransferResult) : RunResult :=
  let month_stats := results.foldl fold_table_result (init_month_stats total_tables_found)
  let status := classify_status month_stats.errors month_stats.total_files_transferred
  { row := update_tracking target_month month_stats status, errors := month_stats.errors }

/-- Embeds `process_all_tables` (lines 435-556).  `none` is the "no tables" /
"all months processed" early return with no ledger write.  The sequential
(`max_workers == 1`) dispatch order is used; the parallel path folds the very
same `fold_table_result` step over the `as_completed` order, a permutation of
this list (see `aggregation_order_independent`).  The caller (line 567)
passes `specific_month = none` for an empty `month_limit` widget, so the
Python truthiness test on `specific_month` coincides with the `Option` match.
`last_processed` stands for the ledger read `get_last_processed_month()`. -/
def process_all_tables (env : Env) (source_volume_path target_volume_path : String)
    (last_processed : Option String) (specific_month : Option String) : Option RunResult :=
  let table_paths := get_table_paths env source_volume_path
  if table_paths = [] then none
  else
    let target_month? :=
      match specific_month with
      | some m => some m
      | none => get_next_simulation_month env source_volume_path last_processed
    match target_month? with
    | none => none
    | some target_month =>
      some (run_summary target_month table_paths.length
        (table_paths.map (fun ti => process_single_table_for_month env target_volume_path ti target_month)))

/-- A table reference used by the claim-C2 analysis. -/
def tableC2 : TableRef :=
  { schema := "claims", table := "policies", path := "/Volumes/src/claims/policies/" }

/-- An environment whose every listing raises: the partition scan of any
table fails with an exception. -/
def envC2 : Env :=
  { ls := fun _ => .error "SimulatedListingException",
    cp := fun _ _ => .ok () }


/-- Listing of the claim-C10 table directory: a regular file whose name
merely contains the partition token with a trailing suffix, a directory
whose name continues with a further digit, and a directory with the token in
the middle of its name. -/
def itemsC10 : List FsEntry :=
  [ { name := "extraction_month=2020-01.bak", path := "/vol/claims/members/extraction_month=2020-01.bak",
      size := 10, isDir := false },
    { name := "extraction_month=2020-013/", path := "/vol/claims/members/extraction_month=2020-013/",
      size := 0, isDir := true },
    { name := "backup_extraction_month=1999-12_old/", path := "/vol/claims/members/backup_extraction_month=1999-12_old/",
      size := 0, isDir := true } ]

/-- Environment for claim C10. -/
def envC10 : Env :=
  { ls := fun p => if p = "/vol/claims/members/" then .ok itemsC10 else .error "no such path",
    cp := fun _ _ => .ok () }


/-- Listing of the claim-C6 partition directory: a regular data file (with a
`dbfs:` path), an underscore-prefixed marker file, and a subdirectory. -/
def itemsC6 : List FsEntry :=
  [ { name := "part-0001.parquet", path := "dbfs:/vol/claims/members/extraction_month=2020-01/part-0001.parquet",
      size := 42, isDir := false },
    { name := "_SUCCESS", path := "dbfs:/vol/claims/members/extraction_month=2020-01/_SUCCESS",
      size := 0, isDir := false },
    { name := "nested/", path := "dbfs:/vol/claims/members/extraction_month=2020-01/nested/",
      size := 0, isDir := true } ]

/-- Environment for claim C6. -/
def envC6 : Env :=
  { ls := fun p => if p = "/vol/claims/members/extraction_month=2020-01" then .ok itemsC6 else .error "partition absent",
    cp := fun _ _ => .ok () }

/-- Source-volume listing for the end-to-end run environment. -/
def runSchemas : List FsEntry := [{ name := "claims/", path := "/src/claims/", size := 0, isDir := true }]

/-- Tables of schema `claims` in the run environment. -/
def runTables : List FsEntry :=
  [ { name := "members/", path := "/src/claims/members/", size := 0, isDir := true },
    { name := "policies/", path := "/src/claims/policies/", size := 0, isDir := true } ]

/-- Partitions of table `members` in the run environment. -/
def runMembersMonths : List FsEntry :=
  [{ name := "extraction_month=2020-01/", path := "/src/claims/members/extraction_month=2020-01/", size := 0, isDir := true }]

/-- Files of the `members` 2020-01 partition in the run environment. -/
def runMemberFiles : List FsEntry :=
  [{ name := "part-0.parquet", path := "/src/claims/members/extraction_month=2020-01/part-0.parquet", size := 7, isDir := false }]

/-- A small two-table source volume on which a run completes: table
`claims/members` has one file for month 2020-01, table `claims/policies`
has no partitions at all; every copy succeeds. -/
def envRun : Env :=
  { ls := fun p =>
      if p = "/src" then .ok runSchemas
      else if p = "/src/claims/" then .ok runTables
      else if p = "/src/claims/members/" then .ok runMembersMonths
      else if p = "/src/claims/policies/" then .ok []
      else if p = "/src/claims/members/extraction_month=2020-01" then .ok runMemberFiles
      else .error "path not found",
    cp := fun _ _ => .ok () }

/-- The run result produced by `process_all_tables` on `envRun` with an empty
ledger: month 2020-01 is selected, `claims/members` transfers its one file,
`claims/policies` is skipped. -/
def rrRun : RunResult :=
  { row := { simulation_month := "2020-01", total_tables_found := 2, tables_with_files := 1,
             tables_skipped := 1, total_files_transferred := 1, total_bytes_transferred := 7,
             status := "success" },
    errors := [] }

/-! ## Lemmas about the string order -/

theorem strLeChars_refl : ∀ as, strLeChars as as = true := by
  intro as
  induction as with
  | nil => rfl
  | cons a as ih => simp [strLeChars, ih]

theorem strLeChars_total : ∀ as bs, strLeChars as bs = true ∨ strLeChars bs as = true := by
  intro as
  induction as with
  | nil => intro bs; left; rfl
  | cons a as ih =>
    intro bs
    cases bs with
    | nil => right; rfl
    | cons b bs =>
      by_cases hab : a < b
      · left; simp [strLeChars, hab]
      · by_cases hba : b < a
        · right; simp [strLeChars, hba]
        · rcases ih bs with h | h
          · left; simp [strLeChars, hab, hba, h]
          · right; simp [strLeChars, hab, hba, h]

theorem strLeChars_trans :
    ∀ as bs cs, strLeChars as bs = true → strLeChars bs cs = true → strLeChars as cs = true := by
  intro as
  induction as with
  | nil => intro bs cs _ _; rfl
  | cons a as ih =>
    intro bs cs h1 h2
    cases bs with
    | nil => simp [strLeChars] at h1
    | cons b bs =>
      cases cs with
      | nil => simp [strLeChars] at h2
      | cons c cs =>
        simp only [strLeChars] at h1 h2 ⊢
        by_cases hab : a < b
        · by_cases hbc : b < c
          · simp [lt_trans hab hbc]
          · by_cases hcb : c < b
            · simp [hbc, hcb] at h2
            · have hbc' : b = c := le_antisymm (not_lt.mp hcb) (not_lt.mp hbc)
              subst hbc'
              simp [hab]
        · by_cases hba : b < a
          · simp [hab, hba] at h1
          · have hba' : a = b := le_antisymm (not_lt.mp hba) (not_lt.mp hab)
            subst hba'
            simp only [lt_irrefl, if_false] at h1
            by_cases hac : a < c
            · simp [hac]
            · by_cases hca : c < a
              · simp [hac, hca] at h2
              · simp only [hac, hca, if_false]
                simp only [hac, hca, if_false] at h2
                exact ih bs cs h1 h2

theorem pyLe_refl (a : String) : pyLe a a = true := strLeChars_refl a.data

theorem pyLe_total (a b : String) : pyLe a b = true ∨ pyLe b a = true :=
  strLeChars_total a.data b.data

theorem pyLe_trans {a b c : String} (h1 : pyLe a b = true) (h2 : pyLe b c = true) :
    pyLe a c = true :=
  strLeChars_trans a.data b.data c.data h1 h2

theorem pyLt_iff_not_pyLe (a b : String) : pyLt a b = true ↔ ¬ pyLe b a = true := by
  simp [pyLt]

/-! ## Lemmas about the Month Selector -/

theorem sorted_head_min {l : List String} (hs : l.Pairwise monthLeR) {h : String}
    (hh : l.head? = some h) : ∀ x ∈ l, pyLe h x = true := by
  cases l with
  | nil => cases hh
  | cons a t =>
    have ha : a = h := Option.some.inj hh
    subst ha
    intro x hx
    rcases List.mem_cons.mp hx with rfl | hx
    · exact pyLe_refl x
    · exact (List.pairwise_cons.mp hs).1 x hx

theorem select_next_month_last_none (l : List String) :
    select_next_month l none = l.head? := by
  cases l <;> rfl

theorem select_next_month_last_some (l : List String) (lp : String) :
    select_next_month l (some lp) = (l.filter (fun m => pyLt lp m)).head? := by
  cases l with
  | nil => rfl
  | cons a t =>
    simp only [select_next_month]
    cases hf : (a :: t).filter (fun m => pyLt lp m) <;> simp [hf]

/-- Claim C1: Month Selector correctness.  Over any filesystem state and any
ledger state: if no month is discovered in any table the selector returns
`none`; on an empty ledger (`last = none`) it returns a minimum of the
discovered months; on ledger maximum `lp` it returns a least discovered
month strictly greater than `lp` whenever one exists, and `none` when every
discovered month is `≤ lp`; and a non-`none` answer is always strictly
greater than the last processed month. -/
theorem month_selector_correct (env : Env) (src : String) (last : Option String) :
    (discovered_months env src = [] → get_next_simulation_month env src last = none)
    ∧ (last = none → discovered_months env src ≠ [] →
        ∃ m0, get_next_simulation_month env src last = some m0
          ∧ m0 ∈ discovered_months env src
          ∧ ∀ m ∈ discovered_months env src, pyLe m0 m = true)
    ∧ (∀ lp, last = some lp →
        ((∀ m ∈ discovered_months env src, pyLe m lp = true) →
          get_next_simulation_month env src last = none)
        ∧ (∀ mw ∈ discovered_months env src, pyLt lp mw = true →
            ∃ m0, get_next_simulation_month env src last = some m0
              ∧ m0 ∈ discovered_months env src
              ∧ pyLt lp m0 = true
              ∧ ∀ m ∈ discovered_months env src, pyLt lp m = true → pyLe m0 m = true))
    ∧ (∀ m0 lp, get_next_simulation_month env src last = some m0 → last = some lp →
        pyLt lp m0 = true) := by
  haveI instTot : IsTotal String monthLeR := ⟨fun a b => pyLe_total a b⟩
  haveI instTrans : IsTrans String monthLeR := ⟨fun a b c => pyLe_trans⟩
  by_cases htp : get_table_paths env src = []
  · have hDnil : discovered_months env src = [] := by
      unfold discovered_months
      rw [htp]
      rfl
    have hnone : get_next_simulation_month env src last = none := by
      unfold get_next_simulation_month
      rw [if_pos htp]
    refine ⟨fun _ => hnone, ?_, ?_, ?_⟩
    · intro _ hne; exact absurd hDnil hne
    · intro lp _
      refine ⟨fun _ => hnone, ?_⟩
      intro mw hmw _
      rw [hDnil] at hmw
      cases hmw
    · intro m0 lp hsome _
      rw [hnone] at hsome
      cases hsome
  · have hgn : get_next_simulation_month env src last =
        select_next_month
          (List.insertionSort monthLeR (discovered_months env src).dedup) last := by
      unfold get_next_simulation_month
      rw [if_neg htp]
    have hmemL : ∀ m, m ∈ List.insertionSort monthLeR (discovered_months env src).dedup
        ↔ m ∈ discovered_months env src := by
      intro m
      rw [List.mem_insertionSort, List.mem_dedup]
    have hpairL : (List.insertionSort monthLeR (discovered_months env src).dedup).Pairwise monthLeR :=
      List.sorted_insertionSort monthLeR (discovered_months env src).dedup
    refine ⟨?_, ?_, ?_, ?_⟩
    · intro hDnil
      rw [hgn]
      rw [(List.dedup_eq_nil (discovered_months env src)).mpr hDnil]
      rfl
    · intro hlast hne
      subst hlast
      have hLne : List.insertionSort monthLeR (discovered_months env src).dedup ≠ [] := by
        intro hLnil
        apply hne
        rw [List.eq_nil_iff_forall_not_mem]
        intro m hm
        rw [← hmemL] at hm
        rw [hLnil] at hm
        cases hm
      obtain ⟨m0, t, hcons⟩ := List.exists_cons_of_ne_nil hLne
      have hh : (List.insertionSort monthLeR (discovered_months env src).dedup).head? = some m0 := by
        rw [hcons]; rfl
      refine ⟨m0, ?_, ?_, ?_⟩
      · rw [hgn, select_next_month_last_none, hh]
      · rw [← hmemL]
        exact List.mem_of_mem_head? (Option.mem_def.mpr hh)
      · intro m hm
        exact sorted_head_min hpairL hh m ((hmemL m).mpr hm)
    · intro lp hlast
      subst hlast
      constructor
      · intro hall
        have hfil : (List.insertionSort monthLeR (discovered_months env src).dedup).filter
            (fun m => pyLt lp m) = [] := by
          rw [List.filter_eq_nil_iff]
          intro x hx
          have hxd := (hmemL x).mp hx
          have hle := hall x hxd
          simp only [pyLt, hle, Bool.not_true, Bool.false_eq_true, not_false_iff]
        rw [hgn, select_next_month_last_some, hfil]
        rfl
      · intro mw hmwD hmwlt
        have hmwF : mw ∈ (List.insertionSort monthLeR (discovered_months env src).dedup).filter
            (fun m => pyLt lp m) :=
          List.mem_filter.mpr ⟨(hmemL mw).mpr hmwD, hmwlt⟩
        have hFne : (List.insertionSort monthLeR (discovered_months env src).dedup).filter
            (fun m => pyLt lp m) ≠ [] := by
          intro hnil; rw [hnil] at hmwF; cases hmwF
        obtain ⟨m0, t, hcons⟩ := List.exists_cons_of_ne_nil hFne
        have hh : ((List.insertionSort monthLeR (discovered_months env src).dedup).filter
            (fun m => pyLt lp m)).head? = some m0 := by
          rw [hcons]; rfl
        have hm0F : m0 ∈ (List.insertionSort monthLeR (discovered_months env src).dedup).filter
            (fun m => pyLt lp m) := List.mem_of_mem_head? (Option.mem_def.mpr hh)
        have hm0L := (List.mem_filter.mp hm0F).1
        have hm0lt := (List.mem_filter.mp hm0F).2
        refine ⟨m0, ?_, (hmemL m0).mp hm0L, hm0lt, ?_⟩
        · rw [hgn, select_next_month_last_some, hh]
        · intro m hmD hmlt
          have hpairF := hpairL.filter (fun m => pyLt lp m)
          exact sorted_head_min hpairF hh m
            (List.mem_filter.mpr ⟨(hmemL m).mpr hmD, hmlt⟩)
    · intro m0 lp hsome hlast
      subst hlast
      rw [hgn, select_next_month_last_some] at hsome
      have hm0F := List.mem_of_mem_head? (Option.mem_def.mpr hsome)
      exact (List.mem_filter.mp hm0F).2

/-- Witness for claim C1 at a concrete filesystem and ledger state. -/
theorem month_selector_correct_witness :
    ∃ m0, get_next_simulation_month envRun "/src" (some "2019-12") = some m0
      ∧ m0 ∈ discovered_months envRun "/src"
      ∧ pyLt "2019-12" m0 = true
      ∧ ∀ m ∈ discovered_months envRun "/src",
          pyLt "2019-12" m = true → pyLe m0 m = true :=
  ((month_selector_correct envRun "/src" (some "2019-12")).2.2.1 "2019-12" rfl).2
    "2020-01" (by decide) (by decide)

/-! ## Lemmas about the Transfer Executor -/

theorem length_filter_add_length_filter_not {α : Type} (p : α → Bool) :
    ∀ l : List α, (l.filter p).length + (l.filter (fun a => !p a)).length = l.length := by
  intro l
  induction l with
  | nil => rfl
  | cons a l ih =>
    cases h : p a <;> simp [List.filter_cons, h] <;> omega

theorem transfer_one_foldl_spec (env : Env) (tvp sn tn tm : String) :
    ∀ (files : List (String × Nat)) (s : TransferStats),
      files.foldl (transfer_one env (tvp ++ "/" ++ sn ++ "/" ++ tn ++ "/extraction_month=" ++ tm)) s =
        { transferred := s.transferred + (files.filter (copy_succeeds env tvp sn tn tm)).length,
          failed := s.failed + (files.filter (fun f => !copy_succeeds env tvp sn tn tm f)).length,
          bytes := s.bytes + ((files.filter (copy_succeeds env tvp sn tn tm)).map Prod.snd).sum,
          errors := s.errors ++ (files.filter (fun f => !copy_succeeds env tvp sn tn tm f)).map
            (copy_error_string env tvp sn tn tm) } := by
  intro files
  induction files with
  | nil => intro s; cases s; simp
  | cons f fs ih =>
    intro s
    rw [List.foldl_cons, ih]
    have hone : transfer_one env (tvp ++ "/" ++ sn ++ "/" ++ tn ++ "/extraction_month=" ++ tm) s f =
        match env.cp f.1 (transfer_target_path tvp sn tn tm f.1) with
        | .ok _ => { s with transferred := s.transferred + 1, bytes := s.bytes + f.2 }
        | .error e => { s with failed := s.failed + 1, errors := s.errors ++ [f.1 ++ ": " ++ e] } := rfl
    cases hcp : env.cp f.1 (transfer_target_path tvp sn tn tm f.1) with
    | ok u =>
      have hok : copy_succeeds env tvp sn tn tm f = true := by
        unfold copy_succeeds; rw [hcp]
      rw [hone, hcp]
      simp only [List.filter_cons, hok, Bool.not_true, Bool.false_eq_true, if_false, if_true,
        List.length_cons, List.map_cons, List.sum_cons, TransferStats.mk.injEq]
      and_intros <;> first | rfl | omega | simp [List.append_assoc]
    | error e =>
      have hok : copy_succeeds env tvp sn tn tm f = false := by
        unfold copy_succeeds; rw [hcp]
      have herr : copy_error_string env tvp sn tn tm f = f.1 ++ ": " ++ e := by
        unfold copy_error_string; rw [hcp]
      rw [hone, hcp]
      simp only [List.filter_cons, hok, Bool.not_false, Bool.false_eq_true, if_false, if_true,
        List.length_cons, List.map_cons, List.sum_cons, herr, TransferStats.mk.injEq]
      and_intros <;> first | rfl | omega | simp [List.append_assoc]

/-- Claim C7: Transfer Executor.  For every file list, the destination of each
file is the derived path `<targetRoot>/<schema>/<table>/extraction_month=<month>/<name>`
(`transfer_target_path`, used inside `copy_succeeds`/`copy_error_string`);
each file is copied independently; a file whose copy fails contributes the
error string `"<path>: <message>"` without aborting the remaining files; and
the returned stats are the count of successes, the count of failures, the
cumulative bytes of the successful copies, and the list of error strings. -/
theorem transfer_executor_correct (env : Env)
    (target_volume_path schema_name table_name table_path target_month : String)
    (files : List (String × Nat)) :
    transfer_files_for_table env target_volume_path schema_name table_name table_path target_month files =
      { transferred := (files.filter
          (copy_succeeds env target_volume_path schema_name table_name target_month)).length,
        failed := (files.filter
          (fun f => !copy_succeeds env target_volume_path schema_name table_name target_month f)).length,
        bytes := ((files.filter
          (copy_succeeds env target_volume_path schema_name table_name target_month)).map Prod.snd).sum,
        errors := (files.filter
          (fun f => !copy_succeeds env target_volume_path schema_name table_name target_month f)).map
          (copy_error_string env target_volume_path schema_name table_name target_month) } := by
  unfold transfer_files_for_table
  by_cases hf : files = []
  · subst hf; simp
  · rw [if_neg hf, transfer_one_foldl_spec]
    simp

/-- Claim C9: every enumerated file is counted exactly once as transferred or
failed, and the reported bytes are the sum of the pre-enumerated listing
sizes (the `Prod.snd` components handed in, never re-measured) of exactly
the successfully copied files. -/
theorem transfer_counts_invariant (env : Env)
    (target_volume_path schema_name table_name table_path target_month : String)
    (files : List (String × Nat)) :
    (transfer_files_for_table env target_volume_path schema_name table_name table_path target_month files).transferred
      + (transfer_files_for_table env target_volume_path schema_name table_name table_path target_month files).failed
      = files.length
    ∧ (transfer_files_for_table env target_volume_path schema_name table_name table_path target_month files).bytes
      = ((files.filter
          (copy_succeeds env target_volume_path schema_name table_name target_month)).map Prod.snd).sum := by
  unfold transfer_files_for_table
  by_cases hf : files = []
  · subst hf; simp
  · rw [if_neg hf, transfer_one_foldl_spec]
    refine ⟨?_, by simp⟩
    simp only [Nat.zero_add]
    exact length_filter_add_length_filter_not _ files

/-! ## Lemmas about aggregation and the Run Coordinator -/

theorem fold_table_result_spec :
    ∀ (rs : List TransferResult) (s : RunStats),
      rs.foldl fold_table_result s =
        { total_tables_found := s.total_tables_found,
          tables_with_files := s.tables_with_files + (rs.filter (fun r => r.has_files)).length,
          tables_skipped := s.tables_skipped + (rs.filter (fun r => !r.has_files)).length,
          total_files_transferred := s.total_files_transferred
            + ((rs.filter (fun r => r.has_files)).map (fun r => r.files_transferred)).sum,
          total_bytes_transferred := s.total_bytes_transferred
            + ((rs.filter (fun r => r.has_files)).map (fun r => r.bytes_transferred)).sum,
          errors := s.errors ++ (rs.map (fun r => r.errors)).flatten } := by
  intro rs
  induction rs with
  | nil => intro s; cases s; simp
  | cons r rs ih =>
    intro s
    rw [List.foldl_cons, ih]
    unfold fold_table_result
    cases hhf : r.has_files <;> by_cases herr : r.errors = [] <;>
      simp only [hhf, herr, if_true, if_false, ne_eq, not_true_eq_false, not_false_eq_true,
        ite_true, ite_false, Bool.false_eq_true, Bool.not_false, Bool.not_true,
        List.filter_cons, List.map_cons, List.flatten_cons, List.length_cons,
        List.sum_cons, RunStats.mk.injEq] <;>
      and_intros <;> first | rfl | omega | simp [herr, List.append_assoc]

theorem flatten_map_errors_eq_nil_iff (rs : List TransferResult) :
    (rs.map (fun r => r.errors)).flatten = [] ↔ ∀ r ∈ rs, r.errors = [] := by
  rw [List.flatten_eq_nil_iff]
  constructor
  · intro h r hr
    exact h _ (List.mem_map_of_mem _ hr)
  · intro h l hl
    obtain ⟨r, hr, rfl⟩ := List.mem_map.mp hl
    exact h r hr

theorem classify_status_congr {e₁ e₂ : List String} (n : Nat) (h : e₁ = [] ↔ e₂ = []) :
    classify_status e₁ n = classify_status e₂ n := by
  unfold classify_status
  by_cases h1 : e₁ = []
  · simp [h1, h.mp h1]
  · have h2 : e₂ ≠ [] := fun hh => h1 (h.mpr hh)
    simp [h1, h2]

/-- Claim C8: aggregation is order-independent.  Folding any permutation of
the per-table results yields an identical ledger row: the sums of files and
bytes, the two table counts, and the status are invariant (only the order of
the non-persisted error list may differ). -/
theorem aggregation_order_independent (target_month : String) (total : Nat)
    (rs₁ rs₂ : List TransferResult) (hp : List.Perm rs₁ rs₂) :
    (run_summary target_month total rs₁).row = (run_summary target_month total rs₂).row := by
  unfold run_summary update_tracking
  rw [fold_table_result_spec, fold_table_result_spec]
  have hwith : (rs₁.filter (fun r => r.has_files)).length
      = (rs₂.filter (fun r => r.has_files)).length := (hp.filter _).length_eq
  have hskip : (rs₁.filter (fun r => !r.has_files)).length
      = (rs₂.filter (fun r => !r.has_files)).length := (hp.filter _).length_eq
  have hfiles : ((rs₁.filter (fun r => r.has_files)).map (fun r => r.files_transferred)).sum
      = ((rs₂.filter (fun r => r.has_files)).map (fun r => r.files_transferred)).sum :=
    ((hp.filter _).map _).sum_eq
  have hbytes : ((rs₁.filter (fun r => r.has_files)).map (fun r => r.bytes_transferred)).sum
      = ((rs₂.filter (fun r => r.has_files)).map (fun r => r.bytes_transferred)).sum :=
    ((hp.filter _).map _).sum_eq
  have herr : (rs₁.map (fun r => r.errors)).flatten = []
      ↔ (rs₂.map (fun r => r.errors)).flatten = [] := by
    rw [flatten_map_errors_eq_nil_iff, flatten_map_errors_eq_nil_iff]
    constructor
    · intro h r hr
      exact h r (hp.mem_iff.mpr hr)
    · intro h r hr
      exact h r (hp.mem_iff.mp hr)
  dsimp only [init_month_stats]
  simp only [List.nil_append, Nat.zero_add]
  rw [hwith, hskip, hfiles, hbytes, classify_status_congr _ herr]

/-- Two concrete per-table results for the claim-C8 witness. -/
def resA : TransferResult :=
  { label := "claims/members", has_files := true, files_transferred := 2,
    bytes_transferred := 5, errors := [] }

/-- Second concrete per-table result for the claim-C8 witness. -/
def resB : TransferResult :=
  { label := "claims/policies", has_files := false, files_transferred := 0,
    bytes_transferred := 0, errors := ["claims/policies/x: boom"] }

/-- Witness for claim C8: swapping two concrete results leaves the row equal. -/
theorem aggregation_order_independent_witness :
    (run_summary "2020-02" 2 [resA, resB]).row = (run_summary "2020-02" 2 [resB, resA]).row :=
  aggregation_order_independent "2020-02" 2 [resA, resB] [resB, resA]
    (List.Perm.swap resB resA [])

theorem process_all_tables_eq_run_summary (env : Env) (src tgt : String)
    (last specific : Option String) (rr : RunResult)
    (h : process_all_tables env src tgt last specific = some rr) :
    ∃ target_month,
      rr = run_summary target_month (get_table_paths env src).length
        ((get_table_paths env src).map
          (fun ti => process_single_table_for_month env tgt ti target_month)) := by
  simp only [process_all_tables] at h
  by_cases htp : get_table_paths env src = []
  · rw [if_pos htp] at h
    cases h
  · rw [if_neg htp] at h
    cases specific with
    | some m => exact ⟨m, (Option.some.inj h).symm⟩
    | none =>
      cases hm : get_next_simulation_month env src last with
      | none => rw [hm] at h; cases h
      | some tm =>
        rw [hm] at h
        exact ⟨tm, (Option.some.inj h).symm⟩

/-- Claim C3: status classification of a completed run.  The persisted status
is `failed` iff errors were recorded and no file was transferred, `partial`
iff errors were recorded and some file was transferred, and `success` iff no
error was recorded. -/
theorem status_classification_correct (env : Env) (src tgt : String)
    (last specific : Option String) (rr : RunResult)
    (h : process_all_tables env src tgt last specific = some rr) :
    (rr.row.status = "failed" ↔ rr.errors ≠ [] ∧ rr.row.total_files_transferred = 0)
    ∧ (rr.row.status = "partial" ↔ rr.errors ≠ [] ∧ 0 < rr.row.total_files_transferred)
    ∧ (rr.row.status = "success" ↔ rr.errors = []) := by
  obtain ⟨tm, rfl⟩ := process_all_tables_eq_run_summary env src tgt last specific rr h
  unfold run_summary update_tracking
  dsimp only
  generalize (List.foldl fold_table_result
    (init_month_stats (get_table_paths env src).length)
    ((get_table_paths env src).map
      (fun ti => process_single_table_for_month env tgt ti tm))).errors = E
  generalize (List.foldl fold_table_result
    (init_month_stats (get_table_paths env src).length)
    ((get_table_paths env src).map
      (fun ti => process_single_table_for_month env tgt ti tm))).total_files_transferred = T
  unfold classify_status
  by_cases hE : E = []
  · simp [hE]
  · rcases Nat.eq_zero_or_pos T with hT | hT
    · subst hT
      simp [hE]
    · simp only [hE, ne_eq, not_false_eq_true, if_true, ite_true, hT, if_pos hT]
      refine ⟨?_, ?_, ?_⟩
      · simp [hE]
        omega
      · simp [hE, hT]
      · simp [hE]

/-- Witness for claim C3 on a concrete completed run. -/
theorem status_classification_correct_witness :
    ∃ rr, process_all_tables envRun "/src" "/tgt" none none = some rr
      ∧ (rr.row.status = "success" ↔ rr.errors = []) := by
  have h : process_all_tables envRun "/src" "/tgt" none none = some rrRun := by decide
  exact ⟨rrRun, h, (status_classification_correct envRun "/src" "/tgt" none none rrRun h).2.2⟩

/-- Claim C4: after one completed run, every discovered table is counted in
exactly one of the two categories: `tablesWithFiles + tablesSkipped` equals
the number of discovered tables, which is also the recorded
`totalTablesFound`. -/
theorem tables_partition_count (env : Env) (src tgt : String)
    (last specific : Option String) (rr : RunResult)
    (h : process_all_tables env src tgt last specific = some rr) :
    rr.row.tables_with_files + rr.row.tables_skipped = (get_table_paths env src).length
    ∧ rr.row.total_tables_found = (get_table_paths env src).length := by
  obtain ⟨tm, rfl⟩ := process_all_tables_eq_run_summary env src tgt last specific rr h
  unfold run_summary update_tracking
  rw [fold_table_result_spec]
  dsimp only [init_month_stats]
  constructor
  · have hpart := length_filter_add_length_filter_not (fun r : TransferResult => r.has_files)
      ((get_table_paths env src).map (fun ti => process_single_table_for_month env tgt ti tm))
    simp only [Nat.zero_add]
    rw [hpart, List.length_map]
  · rfl

/-- Witness for claim C4 on a concrete completed run. -/
theorem tables_partition_count_witness :
    ∃ rr, process_all_tables envRun "/src" "/tgt" none none = some rr
      ∧ rr.row.tables_with_files + rr.row.tables_skipped = 2 := by
  have h : process_all_tables envRun "/src" "/tgt" none none = some rrRun := by decide
  have h2 := (tables_partition_count envRun "/src" "/tgt" none none rrRun h).1
  refine ⟨rrRun, h, ?_⟩
  rw [h2]
  decide

theorem process_single_skip_of_month_absent (env : Env) (tgt : String) (ti : TableRef)
    (m : String) (hm : m ∉ extract_months_from_table env ti.path) :
    process_single_table_for_month env tgt ti m =
      { label := ti.schema ++ "/" ++ ti.table, has_files := false,
        files_transferred := 0, bytes_transferred := 0, errors := [] } := by
  simp only [process_single_table_for_month]
  rw [if_pos hm]

/-- Claim C5: an operator-supplied explicit month overrides the Month
Selector entirely and is used verbatim, with no validation against the
discovered partitions (the ledger row's month key is the supplied month for
any ledger state and any filesystem); and when no table contains that month,
every table returns `has_files = false`, zero files and bytes are
transferred, the status is `success`, and a ledger row is still produced for
that month. -/
theorem explicit_month_override (env : Env) (src tgt : String) (last : Option String)
    (m : String) (htp : get_table_paths env src ≠ []) :
    (∃ rr, process_all_tables env src tgt last (some m) = some rr
      ∧ rr.row.simulation_month = m)
    ∧ ((∀ tp ∈ get_table_paths env src, m ∉ extract_months_from_table env tp.path) →
        ∃ rr, process_all_tables env src tgt last (some m) = some rr
          ∧ rr.row.simulation_month = m
          ∧ (∀ tp ∈ get_table_paths env src,
              (process_single_table_for_month env tgt tp m).has_files = false)
          ∧ rr.row.tables_with_files = 0
          ∧ rr.row.tables_skipped = (get_table_paths env src).length
          ∧ rr.row.total_files_transferred = 0
          ∧ rr.row.total_bytes_transferred = 0
          ∧ rr.row.status = "success"
          ∧ rr.errors = []) := by
  have hrun : process_all_tables env src tgt last (some m) =
      some (run_summary m (get_table_paths env src).length
        ((get_table_paths env src).map
          (fun ti => process_single_table_for_month env tgt ti m))) := by
    simp only [process_all_tables]
    rw [if_neg htp]
  constructor
  · exact ⟨_, hrun, rfl⟩
  · intro habsent
    have hres : ∀ tp ∈ get_table_paths env src,
        process_single_table_for_month env tgt tp m =
          { label := tp.schema ++ "/" ++ tp.table, has_files := false,
            files_transferred := 0, bytes_transferred := 0, errors := [] } :=
      fun tp htp' => process_single_skip_of_month_absent env tgt tp m (habsent tp htp')
    have hfilter_has : ((get_table_paths env src).map
        (fun ti => process_single_table_for_month env tgt ti m)).filter
          (fun r => r.has_files) = [] := by
      rw [List.filter_eq_nil_iff]
      intro r hr
      obtain ⟨tp, htp', rfl⟩ := List.mem_map.mp hr
      rw [hres tp htp']
      simp
    have hfilter_not : ((get_table_paths env src).map
        (fun ti => process_single_table_for_month env tgt ti m)).filter
          (fun r => !r.has_files) =
        (get_table_paths env src).map
          (fun ti => process_single_table_for_month env tgt ti m) := by
      rw [List.filter_eq_self]
      intro r hr
      obtain ⟨tp, htp', rfl⟩ := List.mem_map.mp hr
      rw [hres tp htp']
      simp
    have herrs : (((get_table_paths env src).map
        (fun ti => process_single_table_for_month env tgt ti m)).map
          (fun r => r.errors)).flatten = [] := by
      rw [flatten_map_errors_eq_nil_iff]
      intro r hr
      obtain ⟨tp, htp', rfl⟩ := List.mem_map.mp hr
      rw [hres tp htp']
    have hsum : run_summary m (get_table_paths env src).length
        ((get_table_paths env src).map
          (fun ti => process_single_table_for_month env tgt ti m)) =
        { row := { simulation_month := m,
                   total_tables_found := (get_table_paths env src).length,
                   tables_with_files := 0,
                   tables_skipped := (get_table_paths env src).length,
                   total_files_transferred := 0,
                   total_bytes_transferred := 0,
                   status := "success" },
          errors := [] } := by
      unfold run_summary update_tracking
      rw [fold_table_result_spec]
      dsimp only [init_month_stats]
      rw [hfilter_has, hfilter_not, herrs]
      simp [classify_status, List.length_map]
    refine ⟨_, hrun, rfl, fun tp htp' => by rw [hres tp htp'], ?_, ?_, ?_, ?_, ?_, ?_⟩
    · rw [hsum]
    · rw [hsum]
    · rw [hsum]
    · rw [hsum]
    · rw [hsum]
    · rw [hsum]

/-- Witness for claim C5: the override month 2024-01 exists in no table of
the concrete run environment, yet a success ledger row for 2024-01 results. -/
theorem explicit_month_override_witness :
    ∃ rr, process_all_tables envRun "/src" "/tgt" none (some "2024-01") = some rr
      ∧ rr.row.simulation_month = "2024-01"
      ∧ (∀ tp ∈ get_table_paths envRun "/src",
          (process_single_table_for_month envRun "/tgt" tp "2024-01").has_files = false)
      ∧ rr.row.tables_with_files = 0
      ∧ rr.row.tables_skipped = (get_table_paths envRun "/src").length
      ∧ rr.row.total_files_transferred = 0
      ∧ rr.row.total_bytes_transferred = 0
      ∧ rr.row.status = "success"
      ∧ rr.errors = [] :=
  (explicit_month_override envRun "/src" "/tgt" none "2024-01" (by decide)).2 (by decide)

/-- Claim C2 counterexample.  With the platform listing raising
`SimulatedListingException` for the table's directory, an unexpected
exception is raised while processing the table, outside the per-file copy
handler — yet the per-table result records no error string at all: the
exception is swallowed inside `extract_months_from_table` (its
`except: pass`), never reaching the per-table boundary handler, so the claim
that it is "recorded as exactly one error string tagged with the table's
label" is false: the error list stays empty and the run would classify as
`success`. -/
theorem table_unexpected_error_counterexample :
    envC2.ls tableC2.path = Except.error "SimulatedListingException"
    ∧ process_single_table_for_month envC2 "/tgt" tableC2 "2020-01" =
        { label := "claims/policies", has_files := false, files_transferred := 0,
          bytes_transferred := 0, errors := [] }
    ∧ (process_single_table_for_month envC2 "/tgt" tableC2 "2020-01").errors.length ≠ 1 :=
  ⟨rfl, by decide, by decide⟩

/-- Claim C2 (amended): an exception raised by the platform listing during a
table's partition scan, or during its file enumeration, is swallowed inside
`extract_months_from_table` / `get_files_for_month` and never reaches the
per-table boundary handler: the table is skipped silently, with
`has_files = false` and no error string recorded (so it counts toward
`tablesSkipped` but contributes nothing to the error list).  Only an
exception escaping those inner handlers would be caught at the per-table
boundary and recorded as a single labelled error string; with listing and
copy as the fallible platform operations, no such exception occurs. -/
theorem listing_failure_silent_skip (env : Env) (tgt : String) (ti : TableRef) (m e : String) :
    (env.ls ti.path = Except.error e →
      process_single_table_for_month env tgt ti m =
        { label := ti.schema ++ "/" ++ ti.table, has_files := false,
          files_transferred := 0, bytes_transferred := 0, errors := [] })
    ∧ (m ∈ extract_months_from_table env ti.path →
        env.ls (ti.path ++ "extraction_month=" ++ m) = Except.error e →
        process_single_table_for_month env tgt ti m =
          { label := ti.schema ++ "/" ++ ti.table, has_files := false,
            files_transferred := 0, bytes_transferred := 0, errors := [] }) := by
  constructor
  · intro h
    have hmonths : extract_months_from_table env ti.path = [] := by
      unfold extract_months_from_table
      rw [h]
      rfl
    exact process_single_skip_of_month_absent env tgt ti m (by rw [hmonths]; exact List.not_mem_nil m)
  · intro hmem h
    have hfiles : get_files_for_month env ti.path m = [] := by
      unfold get_files_for_month
      rw [h]
    simp only [process_single_table_for_month]
    rw [if_neg (by simpa using hmem), hfiles]
    rw [if_pos rfl]

/-- Witness for the amended claim C2 at the concrete failing environment. -/
theorem listing_failure_silent_skip_witness :
    process_single_table_for_month envC2 "/tgt" tableC2 "2020-01" =
      { label := "claims/policies", has_files := false, files_transferred := 0,
        bytes_transferred := 0, errors := [] } := by
  have h := (listing_failure_silent_skip envC2 "/tgt" tableC2 "2020-01"
    "SimulatedListingException").1 rfl
  rw [h]
  rfl

/-- Claim C6: File Enumerator.  For every table base path and target month,
the enumeration consults exactly the `extraction_month=<target>`
subdirectory: a listing failure (partition absent) yields the empty list
rather than an error, and a successful listing yields one `(path, size)`
pair per regular file whose name does not start with an underscore,
excluding directories and underscore-prefixed marker entries. -/
theorem file_enumerator_correct (env : Env) (table_path target_month : String) :
    (∀ e, env.ls (table_path ++ "extraction_month=" ++ target_month) = Except.error e →
      get_files_for_month env table_path target_month = [])
    ∧ (∀ items, env.ls (table_path ++ "extraction_month=" ++ target_month) = Except.ok items →
      get_files_for_month env table_path target_month =
        (items.filter (fun item => item.isFile && !(strStartsWith item.name "_"))).map
          (fun item => (clean_path item.path, item.size))) := by
  constructor
  · intro e he
    unfold get_files_for_month
    rw [he]
  · intro items hi
    unfold get_files_for_month
    rw [hi]

/-- Witness for claim C6: on the concrete partition listing the data file is
returned with its cleaned path and listed size, while the `_SUCCESS` marker
and the subdirectory are excluded. -/
theorem file_enumerator_correct_witness :
    get_files_for_month envC6 "/vol/claims/members/" "2020-01" =
      [("/vol/claims/members/extraction_month=2020-01/part-0001.parquet", 42)] := by
  have h := (file_enumerator_correct envC6 "/vol/claims/members/" "2020-01").2 itemsC6 rfl
  rw [h]
  decide

/-- Claim C10: the Partition Scanner collects a month whenever the pattern
`extraction_month=YYYY-MM` matches anywhere as a substring of an entry's
name, with no check that the entry is a directory and no check that the name
consists solely of the partition token: the regular file
`extraction_month=2020-01.bak` and the directory `extraction_month=2020-013`
both contribute month 2020-01, and a name containing the token in its middle
contributes as well (`envC10` lists exactly these three entries, the first
of which has `isDir = false`). -/
theorem month_pattern_substring_match :
    month_pattern_search "extraction_month=2020-01.bak" = some "2020-01"
    ∧ month_pattern_search "extraction_month=2020-013/" = some "2020-01"
    ∧ month_pattern_search "backup_extraction_month=1999-12_old/" = some "1999-12"
    ∧ itemsC10.map (fun item => item.isDir) = [false, true, true]
    ∧ extract_months_from_table envC10 "/vol/claims/members/" =
        ["1999-12", "2020-01", "2020-01"] :=
  ⟨by decide, by decide, by decide, by decide, by decide⟩
